import Mathlib

/-!
Verification of the snug-lit flare reactive core.

This file shallowly embeds the scheduler (`src/packages/flare/src/scheduler.ts`),
the after-render manager (`src/packages/flare/src/render/manager.ts`), the effect
construction API (`src/packages/flare/src/signals/api/effect.ts`) and the reactive
property-accessor path (`ReactiveInputElement`), and proves the spec's claims
about them.  The signal/computed/watch primitives are re-exported but not present
in the source tree; where a claim depends on them they are modelled from the
spec, with a doc comment saying so.
-/

namespace Flare

/-! ## Scheduler model (`SchedulerImpl` in scheduler.ts)

Effects are identified by natural numbers.  The behaviour of an effect's body —
which, in the source, is arbitrary user code wrapped by `EffectHandle.#runEffect`
or `MicrotaskEffectHandle.#runEffect` — is abstracted by `EffectSpec`: the set of
effects the body schedules, the set of effect handles it destroys, and whether it
throws.  `throwsCaught` is a body exception caught by the `#runEffect` wrapper
(`try { effectFn } catch (err) { setTimeout(() => { throw err; }) }`), recorded
in `deferred`; `throwsUncaught` models a raw `SchedulableEffect` whose `run`
throws with no wrapper, propagating out of the flush loop. -/

structure EffectSpec where
  schedules : List Nat
  destroys : List Nat
  throwsCaught : Bool
  throwsUncaught : Bool
deriving DecidableEq

/-- State of the `SchedulerImpl` together with the destroyed-flags of the effect
handles and history instrumentation (`ran`, `deferred`, `sawNotRunning`,
`renderEntryQueue`, `renderEntryRunning`) used to observe the execution.

The JS `Set` `#queue` iterated with in-loop deletion behaves as a FIFO list
(insertion order, items enqueued mid-iteration are visited); `queue` models it
directly as a list popped from the front.  `#queuedEffectCount` always equals
the size of the set, so it is not modelled separately. -/
structure SchedState where
  queue : List Nat
  destroyed : List Nat
  runningEffects : Bool
  runningRenderEffects : Bool
  isScheduled : Bool
  ran : List Nat
  deferred : List Nat
  sawNotRunning : Bool
  renderEntryQueue : Option (List Nat)
  renderEntryRunning : Option Bool
deriving DecidableEq

/-- Fresh scheduler: all flags false, mirroring the field initializers of
`SchedulerImpl`. -/
def initSched : SchedState :=
  { queue := [], destroyed := [], runningEffects := false,
    runningRenderEffects := false, isScheduled := false, ran := [],
    deferred := [], sawNotRunning := false, renderEntryQueue := none,
    renderEntryRunning := none }

/-- `SchedulerImpl.#enqueue`: add the effect to the pending set unless already
pending. -/
def enqueue (st : SchedState) (id : Nat) : SchedState :=
  if id ∈ st.queue then st else { st with queue := st.queue ++ [id] }

/-- `SchedulerImpl.schedule`: optionally enqueue, and arm the microtask flush if
not already armed and not currently flushing (`!#isScheduled && !#runningEffects`).
The armed flush itself happens later, at the microtask boundary. -/
def schedule (st : SchedState) (id : Option Nat) : SchedState :=
  let st1 := match id with
    | some i => enqueue st i
    | none => st
  if !st1.isScheduled && !st1.runningEffects then
    { st1 with isScheduled := true }
  else st1

/-- `MicrotaskEffectHandle.destroy` / `EffectHandle.destroy` as seen by the
scheduler: set the destroyed flag (for `EffectHandle`, equivalently null out the
watcher).  It deliberately does not touch the scheduler's pending queue — per
the source comment, a scheduled effect is not un-scheduled and executing it
later is a no-op. -/
def destroyEffect (st : SchedState) (id : Nat) : SchedState :=
  if id ∈ st.destroyed then st else { st with destroyed := st.destroyed ++ [id] }

/-- Result of a single `handle.run()` inside `#flushQueue`. -/
inductive RunOut where
  | ok (st : SchedState)
  | thrown (st : SchedState)
deriving DecidableEq

/-- One `handle.run()` as `#flushQueue` performs it, for the handle kinds of the
repository: a destroyed handle is a no-op (`MicrotaskEffectHandle.run` checks
`#destroyed`; `EffectHandle.run` has a null watcher); otherwise the body runs.
A body exception caught by `#runEffect` is deferred via `setTimeout`; a raw
schedulable effect may throw out.  The body's own calls to `scheduleEffect` and
`destroy` are folded over the state.  `sawNotRunning` records whether a body was
ever entered while `#runningEffects` was false.

The state effect of a non-throwing body is `applyBody`: record the run, then
perform the body's `destroy` calls and its `scheduleEffect` calls in order. -/
def applyBody (specs : Nat → EffectSpec) (st : SchedState) (id : Nat) : SchedState :=
  (specs id).schedules.foldl (fun s i => schedule s (some i))
    ((specs id).destroys.foldl destroyEffect { st with ran := st.ran ++ [id] })

/-- History instrumentation at body entry: note if the body is entered while
`#runningEffects` is false. -/
def noteRun (st : SchedState) : SchedState :=
  if st.runningEffects then st else { st with sawNotRunning := true }

def runOne (specs : Nat → EffectSpec) (st : SchedState) (id : Nat) : RunOut :=
  if id ∈ st.destroyed then .ok st
  else
    if (specs id).throwsUncaught then .thrown (noteRun st)
    else if (specs id).throwsCaught then
      .ok { noteRun st with
            ran := (noteRun st).ran ++ [id],
            deferred := (noteRun st).deferred ++ [id] }
    else .ok (applyBody specs (noteRun st) id)

/-- The state carried by a run outcome. -/
def RunOut.stOf : RunOut → SchedState
  | .ok st => st
  | .thrown st => st

/-- Result of draining the pending queue (`while (count > 0) #flushQueue()`). -/
inductive DrainOut where
  | done (st : SchedState)
  | thrown (st : SchedState)
  | fuelOut
deriving DecidableEq

/-- The drain loop of `flush`: pop the front of the pending set, run it, repeat
until the queue is empty.  Effects enqueued by running effects are visited in
the same drain.  `fuel` bounds the number of iterations; the source loop is
unbounded (it must converge under acyclic graphs). -/
def drain (specs : Nat → EffectSpec) : Nat → SchedState → DrainOut
  | 0, _ => .fuelOut
  | fuel + 1, st =>
    match st.queue with
    | [] => .done st
    | id :: rest =>
      match runOne specs { st with queue := rest } id with
      | .ok st1 => drain specs fuel st1
      | .thrown st1 => .thrown st1

/-- Result of `flush()` as a whole. -/
inductive FlushOut where
  | ok (st : SchedState)
  | thrown (st : SchedState)
  | fuelOut
deriving DecidableEq

/-- `SchedulerImpl.flush`: set `#runningEffects`, drain the queue (resetting the
flag in a `finally`), then set `#runningRenderEffects` and run the after-render
manager (again resetting in a `finally`).  The after-render phase is abstracted
by the `renderThrows` parameter; `renderEntryQueue` and `renderEntryRunning`
record the pending queue and the `running` query at the moment
`renderManager?.execute()` is entered. -/
def flush (specs : Nat → EffectSpec) (renderThrows : Bool) (fuel : Nat)
    (st : SchedState) : FlushOut :=
  let st0 := { st with runningEffects := true }
  match drain specs fuel st0 with
  | .fuelOut => .fuelOut
  | .thrown st1 => .thrown { st1 with runningEffects := false }
  | .done st1 =>
    let st2 := { st1 with runningEffects := false }
    let st3 := { st2 with runningRenderEffects := true }
    let st4 := { st3 with
      renderEntryQueue := some st3.queue,
      renderEntryRunning := some (st3.runningEffects || st3.runningRenderEffects) }
    if renderThrows then .thrown { st4 with runningRenderEffects := false }
    else .ok { st4 with runningRenderEffects := false }

/-- The scheduler's `running` getter: `#runningEffects || #runningRenderEffects`. -/
def running (st : SchedState) : Bool :=
  st.runningEffects || st.runningRenderEffects

/-- An effect spec that does nothing when run. -/
def inertSpec : EffectSpec :=
  { schedules := [], destroys := [], throwsCaught := false, throwsUncaught := false }

/-- Concrete instance for C4: effect 0 synchronously schedules effect 1 while
running. -/
def c4specs : Nat → EffectSpec := fun i =>
  if i = 0 then { inertSpec with schedules := [1] } else inertSpec

/-- Initial state for the C4 instance: only effect 0 pending. -/
def c4init : SchedState := { initSched with queue := [0] }

/-- Concrete instance for C3: three pending effects, the middle one's body
throws (caught by the `#runEffect` wrapper). -/
def c3specs : Nat → EffectSpec := fun i =>
  if i = 1 then { inertSpec with throwsCaught := true } else inertSpec

/-- Initial state for the C3 instance. -/
def c3init : SchedState := { initSched with queue := [0, 1, 2] }

/-- Concrete instance for C6: effect 0's body destroys effect 1 mid-flush. -/
def c6specs : Nat → EffectSpec := fun i =>
  if i = 0 then { inertSpec with destroys := [1] } else inertSpec

/-- Initial state for the C6 instance: both effects pending, 1 after 0. -/
def c6init : SchedState := { initSched with queue := [0, 1] }

/-- The state carried by a completed or exceptional flush. -/
def FlushOut.stOf : FlushOut → Option SchedState
  | .ok st => some st
  | .thrown st => some st
  | .fuelOut => none

/-- Whether the flush completed normally. -/
def FlushOut.isOk : FlushOut → Bool
  | .ok _ => true
  | _ => false

end Flare

namespace Flare.Render

/-! ## After-render manager model (`AfterRenderManager` in render/manager.ts)

Hooks take the pipelined value (`Option Nat`, `none` standing for JS
`undefined`) and either return a value, return a value after calling
`unregister` on some sequence (a `destroy()` from inside a hook body), or
throw. -/

/-- Outcome of invoking one after-render hook. -/
inductive HookOut where
  | ok (v : Nat)
  | okUnreg (v : Nat) (target : Nat)
  | thrown

/-- An after-render hook. -/
def HookFn : Type := Option Nat → HookOut

/-- `AfterRenderSequence`: identity, the four phase hooks (position 0 =
earlyRead, 1 = write, 2 = mixedReadWrite, 3 = read), the `once` flag, the
`erroredOrDestroyed` flag, and the pipelined value. -/
structure Seq where
  id : Nat
  hooks : List (Option HookFn)
  once : Bool
  erroredOrDestroyed : Bool
  pipelinedValue : Option Nat

/-- Manager state: the active sequence set and deferred registrations (both in
insertion order), the `executing` flag, plus instrumentation: the trace of hook
invocations `(sequence id, phase, value received)`, the errors rethrown
asynchronously via `setTimeout`, and whether `scheduler.schedule()` was
invoked. -/
structure MgrState where
  sequences : List Seq
  deferredRegistrations : List Seq
  executing : Bool
  trace : List (Nat × Nat × Option Nat)
  deferredErrors : List (Nat × Nat)
  scheduled : Bool

/-- Look up the hook of a sequence for a phase (`sequence.hooks[phase]`). -/
def hookAt (s : Seq) (phase : Nat) : Option HookFn :=
  match s.hooks.get? phase with
  | some (some f) => some f
  | _ => none

/-- Update the sequence with the given identity in place.  Sequence ids stand
for JS object identity; all scenarios use distinct ids. -/
def updateSeq (st : MgrState) (tid : Nat) (f : Seq → Seq) : MgrState :=
  { st with sequences := st.sequences.map fun q => if q.id = tid then f q else q }

/-- `AfterRenderManager.unregister`: while executing, a registered sequence is
not removed from the set — it is marked destroyed, its pipelined value cleared,
and marked one-shot so the cleanup step removes it; otherwise it is removed
directly from both sets. -/
def unregister (st : MgrState) (tid : Nat) : MgrState :=
  if st.executing && st.sequences.any (fun q => q.id == tid) then
    updateSeq st tid fun q =>
      { q with erroredOrDestroyed := true, pipelinedValue := none, once := true }
  else
    { st with
      sequences := st.sequences.filter (fun q => q.id ≠ tid),
      deferredRegistrations := st.deferredRegistrations.filter (fun q => q.id ≠ tid) }

/-- `AfterRenderManager.register`: add directly (and ping the scheduler) when
not executing, else defer to the end of the current execution. -/
def register (st : MgrState) (s : Seq) : MgrState :=
  if !st.executing then
    { st with sequences := st.sequences ++ [s], scheduled := true }
  else
    { st with deferredRegistrations := st.deferredRegistrations ++ [s] }

/-- The body of `execute`'s inner loop for the sequence at position `i` of the
set, in phase `phase`: skip if errored/destroyed or no hook for this phase;
otherwise invoke the hook on the pipelined value and store its return value; on
a throw, mark the sequence and defer a rethrow.  A hook calling `destroy()` on
some sequence runs `unregister` before its return value is stored. -/
def runSeqAt (st : MgrState) (phase i : Nat) : MgrState :=
  match st.sequences.get? i with
  | none => st
  | some s =>
    if s.erroredOrDestroyed then st
    else
      match hookAt s phase with
      | none => st
      | some f =>
        let st1 := { st with trace := st.trace ++ [(s.id, phase, s.pipelinedValue)] }
        match f s.pipelinedValue with
        | .ok v =>
          updateSeq st1 s.id fun q => { q with pipelinedValue := some v }
        | .okUnreg v t =>
          updateSeq (unregister st1 t) s.id fun q => { q with pipelinedValue := some v }
        | .thrown =>
          let st2 := updateSeq st1 s.id fun q => { q with erroredOrDestroyed := true }
          { st2 with deferredErrors := st2.deferredErrors ++ [(s.id, phase)] }

/-- Iterate `runSeqAt` over positions `i, i+1, ...` for `count` sequences.
While executing, `unregister` never shrinks the set and `register` defers, so
the set's length is stable across a phase. -/
def runPhaseFrom (phase : Nat) : Nat → Nat → MgrState → MgrState
  | _, 0, st => st
  | i, count + 1, st => runPhaseFrom phase (i + 1) count (runSeqAt st phase i)

/-- One phase of `execute`: `for (const sequence of this.#sequences) ...`. -/
def runPhase (phase : Nat) (st : MgrState) : MgrState :=
  runPhaseFrom phase 0 st.sequences.length st

/-- `AfterRenderSequence.afterRun`: reset the errored/destroyed mark and the
pipelined value. -/
def afterRun (s : Seq) : Seq :=
  { s with erroredOrDestroyed := false, pipelinedValue := none }

/-- `AfterRenderManager.execute`: the four phases in order under
`executing = true`, then the cleanup step (reset every sequence, drop one-shot
sequences), then promote deferred registrations, pinging the scheduler if there
were any. -/
def execute (st : MgrState) : MgrState :=
  let st1 := { st with executing := true }
  let st2 := runPhase 3 (runPhase 2 (runPhase 1 (runPhase 0 st1)))
  let st3 := { st2 with executing := false }
  let st4 := { st3 with sequences := (st3.sequences.map afterRun).filter fun s => !s.once }
  { st4 with
    sequences := st4.sequences ++ st4.deferredRegistrations,
    scheduled := st4.scheduled || !st4.deferredRegistrations.isEmpty,
    deferredRegistrations := [] }

/-- A hook that returns the value computed by a pure function. -/
def okHook (f : Option Nat → Nat) : HookFn := fun v => .ok (f v)

/-- A hook that throws. -/
def thrownHook : HookFn := fun _ => .thrown

/-- A hook that calls `unregister target` (a `destroy()` from inside the hook)
and then returns `v`. -/
def unregHook (v : Nat) (target : Nat) : HookFn := fun _ => .okUnreg v target

/-- A concrete revealing hook value function: returns `100 * n` plus the
received pipelined value (99 standing for "received nothing"), so each trace
entry identifies both the hook that ran and the value it received. -/
def rv (n : Nat) : Option Nat → Nat := fun v => 100 * n + v.getD 99

/-- C5 instance: sequence 1 registers hooks for all four phases, sequence 2
only for the write and read phases; the hook functions are arbitrary. -/
def c5init (f0 f1 f2 f3 g1 g3 : Option Nat → Nat) : MgrState :=
  { sequences :=
      [ { id := 1,
          hooks := [some (okHook f0), some (okHook f1), some (okHook f2), some (okHook f3)],
          once := false, erroredOrDestroyed := false, pipelinedValue := none },
        { id := 2,
          hooks := [none, some (okHook g1), none, some (okHook g3)],
          once := false, erroredOrDestroyed := false, pipelinedValue := none } ],
    deferredRegistrations := [], executing := false, trace := [],
    deferredErrors := [], scheduled := false }

/-- C7 instance: sequence 1 is one-shot and its write hook throws, sequence 2 is
recurring and healthy, sequence 3 is recurring and its write hook throws. -/
def c7init (a0 b0 b1 b2 b3 e0 : Option Nat → Nat) : MgrState :=
  { sequences :=
      [ { id := 1,
          hooks := [some (okHook a0), some thrownHook, some (okHook a0), some (okHook a0)],
          once := true, erroredOrDestroyed := false, pipelinedValue := none },
        { id := 2,
          hooks := [some (okHook b0), some (okHook b1), some (okHook b2), some (okHook b3)],
          once := false, erroredOrDestroyed := false, pipelinedValue := none },
        { id := 3,
          hooks := [some (okHook e0), some thrownHook, none, none],
          once := false, erroredOrDestroyed := false, pipelinedValue := none } ],
    deferredRegistrations := [], executing := false, trace := [],
    deferredErrors := [], scheduled := false }

/-- C10 instance: sequence 1's earlyRead hook destroys sequence 2, which is
recurring (`once := false`) and has hooks in every phase. -/
def c10init (a1 a2 a3 b0 b1 b2 b3 : Option Nat → Nat) : MgrState :=
  { sequences :=
      [ { id := 1,
          hooks := [some (unregHook 5 2), some (okHook a1), some (okHook a2), some (okHook a3)],
          once := false, erroredOrDestroyed := false, pipelinedValue := none },
        { id := 2,
          hooks := [some (okHook b0), some (okHook b1), some (okHook b2), some (okHook b3)],
          once := false, erroredOrDestroyed := false, pipelinedValue := none } ],
    deferredRegistrations := [], executing := false, trace := [],
    deferredErrors := [], scheduled := false }

/-- Whether some registered sequence has the given identity. -/
def hasSeq (st : MgrState) (tid : Nat) : Bool :=
  st.sequences.any fun q => q.id == tid

/-- A mid-execution manager state used to instantiate the unregister theorem:
the C10 instance with the `executing` flag raised. -/
def c10wst : MgrState :=
  { c10init (rv 11) (rv 12) (rv 13) (rv 20) (rv 21) (rv 22) (rv 23) with
    executing := true }

end Flare.Render

namespace Flare.EffectApi

/-! ## Effect construction (`effect` / `EffectHandle` in signals/api/effect.ts)

Hosts are identified by naturals; `CreateEffectOptions` mirrors the source's
options object, which has only `host` and `allowSignalWrites` fields — there is
no manual-cleanup field of any kind. -/

/-- The options object accepted by `effect`. -/
structure CreateEffectOptions where
  host : Option Nat
  allowSignalWrites : Bool
deriving DecidableEq

/-- Observable outcome of calling `effect(effectFn, options?)`: either a
synchronous construction-time exception, or a returned `EffectRef` — recording
whether the `EffectHandle` constructor connected the watcher immediately
(the no-host branch calls `this.hostConnected()`) and whether it registered
with a host (`host.addController(this)`). -/
inductive ConstructionOutcome where
  | threw
  | returned (connectedImmediately : Bool) (registeredWithHost : Bool)
deriving DecidableEq

/-- The host an `effect` call resolves: `options?.host ?? null`. -/
def hostOf (options : Option CreateEffectOptions) : Option Nat :=
  match options with
  | some o => o.host
  | none => none

/-- `effect(effectFn, options?)`: in dev mode, `assertNotInReactiveContext`
throws when an active consumer exists; otherwise `new EffectHandle(...)` is
returned — its constructor registers with the host when one is given, and
connects immediately (creating and notifying the watcher) when none is. -/
def effect (devMode : Bool) (activeConsumer : Bool)
    (options : Option CreateEffectOptions) : ConstructionOutcome :=
  if devMode && activeConsumer then .threw
  else
    match hostOf options with
    | some _ => .returned false true
    | none => .returned true false

end Flare.EffectApi

namespace Flare.Micro

/-! ## Microtask-effect scenario graph (claim C2)

A concrete reactive graph: one signal `s`, one computed `c := f ∘ s`, and one
microtask effect whose body reads `c` and logs it.  The `microtaskEffect` /
`MicrotaskEffectHandle` wiring and the scheduler are embedded from the source;
the signal/computed/watch primitives are not under the source tree (only
re-exported) and are modelled from the spec, as marked on each definition. -/

/-- Joint state of the scenario graph, the effect handle and the scheduler.
`pending` is membership of the effect in the scheduler's pending set,
`isScheduled` whether the microtask flush is armed; `log` is the effect body's
output. -/
structure GraphState where
  sValue : Int
  sVersion : Nat
  cValue : Option Int
  cVersion : Nat
  cDirty : Bool
  cLastSeenSVersion : Option Nat
  wLastSeenCVersion : Option Nat
  wDirty : Bool
  wHasRun : Bool
  wDestroyed : Bool
  pending : Bool
  isScheduled : Bool
  epoch : Nat
  log : List Int
deriving DecidableEq

/-- State after `s = signal(1)`, `c = computed(() => f(s()))` and
`microtaskEffect(() => log(c()))` are created but before the handle connects:
the computed has never evaluated and nothing is scheduled. -/
def initState : GraphState :=
  { sValue := 1, sVersion := 1, cValue := none, cVersion := 0, cDirty := false,
    cLastSeenSVersion := none, wLastSeenCVersion := none, wDirty := false,
    wHasRun := false, wDestroyed := false, pending := false,
    isScheduled := false, epoch := 0, log := [] }

/-- Modelled from the spec: `consumerMarkDirty` on the watch sets `dirty` and
invokes the node's schedule hook, which for `MicrotaskEffectHandle` is
`scheduler.schedule(this)` — enqueue the effect and arm the microtask flush
(spec 4.1, 4.4, 4.5); no body runs synchronously here. -/
def notifyW (st : GraphState) : GraphState :=
  { st with wDirty := true, pending := true, isScheduled := true }

/-- `MicrotaskEffectHandle.hostConnected`: create the watch over the effect
function and call `watcher.notify()`, which schedules rather than runs. -/
def connect (st : GraphState) : GraphState :=
  notifyW st

/-- `MicrotaskEffectHandle.destroy`: set the destroyed flag and destroy the
watcher; the scheduler's pending set is untouched. -/
def destroyW (st : GraphState) : GraphState :=
  { st with wDestroyed := true }

/-- Modelled from the spec: reading the computed `c` re-derives it lazily
(spec 4.3) — if dirty or never evaluated, poll the recorded producer `s` by
comparing its version with the version last read; on a real change (or first
run) recompute, and bump `c`'s version only if the new value differs per the
default identity equality (`producerUpdateValueVersion`, spec 4.1). -/
def refreshComputed (f : Int → Int) (st : GraphState) : GraphState :=
  if st.cDirty || st.cValue = none then
    let changed := st.cLastSeenSVersion ≠ some st.sVersion
    if changed || st.cValue = none then
      let newVal := f st.sValue
      let st1 :=
        if st.cValue = some newVal then st
        else { st with cValue := some newVal, cVersion := st.cVersion + 1 }
      { st1 with cLastSeenSVersion := some st1.sVersion, cDirty := false }
    else { st with cDirty := false }
  else st

/-- Modelled from the spec: `Watch.run`, invoked by the scheduler's flush.  A
destroyed watch is a no-op (spec 4.4); otherwise clear `dirty` and poll the
read producers for change (`consumerPollProducersForChange`, spec 4.1; the
poll re-derives the lazy computed).  The body re-runs only on the first run or
when a read producer's version actually changed (spec 8); it reads `c`,
recording the version read, and logs the value. -/
def watchRun (f : Int → Int) (st : GraphState) : GraphState :=
  if st.wDestroyed then st
  else
    let st0 := { st with wDirty := false }
    let st1 := refreshComputed f st0
    let changed := some st1.cVersion ≠ st0.wLastSeenCVersion
    if st0.wHasRun && !changed then st1
    else
      { st1 with
        wLastSeenCVersion := some st1.cVersion,
        wHasRun := true,
        log := st1.log ++ [(st1.cValue.getD 0)] }

/-- Modelled from the spec: `s.set(v)` (spec 4.2) — if the new value differs per
the default identity equality, store it, bump the signal's version and the
global epoch, and notify consumers: the computed is marked dirty, and since the
live watch transitively depends on it, the watch is marked dirty and scheduled
(`producerNotifyConsumers`, spec 4.1). -/
def setS (v : Int) (st : GraphState) : GraphState :=
  if st.sValue = v then st
  else
    let st1 := { st with sValue := v, sVersion := st.sVersion + 1,
                         epoch := st.epoch + 1 }
    notifyW { st1 with cDirty := true }

/-- The armed microtask firing: `#isScheduled = false` then `flush()` — run the
pending effect, if any (`SchedulerImpl.flush` / `#flushQueue` restricted to the
single effect of this scenario; its body writes no signals, so one pass
drains). -/
def flushM (f : Int → Int) (st : GraphState) : GraphState :=
  let st1 := { st with isScheduled := false }
  if st1.pending then watchRun f { st1 with pending := false } else st1

/-- The computed function of the spec's scenario: `c = computed(() => s() * 2)`. -/
def dbl : Int → Int := fun x => 2 * x

/-- A constant computed function: `c` never changes however `s` moves. -/
def constSeven : Int → Int := fun _ => 7

end Flare.Micro

namespace Flare.Props

/-! ## Reactive property accessors (`ReactiveInputElement`, claim C8) -/

/-- The `not` helper of the property-accessor module:
`(a, b) => !fn(a, b)` — the pointwise negation of a binary boolean function. -/
def negate {α : Type} (fn : α → α → Bool) : α → α → Bool :=
  fun a b => !(fn a b)

/-- The equality option the `ReactiveInputElement` constructor passes when
creating a property's backing signal:
`equal: prop.hasChanged && not(prop.hasChanged)` — the negation of the
user-supplied `hasChanged` when one is present, else undefined. -/
def propertySignalEqual {α : Type} (hasChanged : Option (α → α → Bool)) :
    Option (α → α → Bool) :=
  hasChanged.map negate

/-- Modelled from the spec: a signal node — stored value, version, and the
configured equality function (spec 3, 4.2); the primitive lives outside the
source tree. -/
structure SignalNode (α : Type) where
  value : α
  version : Nat
  equal : α → α → Bool

/-- Modelled from the spec: `signalSetFn` — "set(newValue): if not equal to
current value (via configured equality), update stored value, increment
version, increment global epoch, call producerNotifyConsumers" (spec 4.2).
Returns the updated node and whether consumers were notified. -/
def signalSetFn {α : Type} (node : SignalNode α) (newValue : α) :
    SignalNode α × Bool :=
  if node.equal newValue node.value then (node, false)
  else ({ node with value := newValue, version := node.version + 1 }, true)

end Flare.Props

namespace Flare

/-- A family of effects that all do nothing. -/
def inertAll : Nat → EffectSpec := fun _ => inertSpec

/-- Final scheduler state of an empty-queue flush from a fresh scheduler, used
to instantiate hypothesis-bearing scheduler theorems. -/
def quietFinal : SchedState :=
  { initSched with renderEntryQueue := some [], renderEntryRunning := some true }

/-- A fresh scheduler on which effect 7 has already been destroyed. -/
def destroyedSevenInit : SchedState :=
  { initSched with destroyed := [7] }

/-- Final state of an empty-queue flush from `destroyedSevenInit`. -/
def destroyedSevenFinal : SchedState :=
  { destroyedSevenInit with renderEntryQueue := some [], renderEntryRunning := some true }

/-- Final state of the C3 concrete flush. -/
def c3final : SchedState :=
  { initSched with
    ran := [0, 1, 2], deferred := [1],
    renderEntryQueue := some [], renderEntryRunning := some true }

end Flare

namespace Flare

/-! ## Lemmas about the scheduler model -/

theorem foldl_proj {α β γ : Type} (g : α → β → α) (p : α → γ)
    (h : ∀ s a, p (g s a) = p s) :
    ∀ (l : List β) (s : α), p (l.foldl g s) = p s := by
  intro l
  induction l with
  | nil => intro s; rfl
  | cons a t ih =>
    intro s
    simp only [List.foldl_cons]
    rw [ih, h]

theorem foldl_pred {α β : Type} (g : α → β → α) (P : α → Prop)
    (h : ∀ s a, P s → P (g s a)) :
    ∀ (l : List β) (s : α), P s → P (l.foldl g s) := by
  intro l
  induction l with
  | nil => intro s hs; exact hs
  | cons a t ih => intro s hs; exact ih _ (h _ _ hs)

theorem destroyEffect_ran (st : SchedState) (i : Nat) :
    (destroyEffect st i).ran = st.ran := by
  unfold destroyEffect; split <;> rfl

theorem destroyEffect_queue (st : SchedState) (i : Nat) :
    (destroyEffect st i).queue = st.queue := by
  unfold destroyEffect; split <;> rfl

theorem destroyEffect_runningEffects (st : SchedState) (i : Nat) :
    (destroyEffect st i).runningEffects = st.runningEffects := by
  unfold destroyEffect; split <;> rfl

theorem destroyEffect_runningRender (st : SchedState) (i : Nat) :
    (destroyEffect st i).runningRenderEffects = st.runningRenderEffects := by
  unfold destroyEffect; split <;> rfl

theorem destroyEffect_sawNotRunning (st : SchedState) (i : Nat) :
    (destroyEffect st i).sawNotRunning = st.sawNotRunning := by
  unfold destroyEffect; split <;> rfl

theorem destroyEffect_destroyed_mono (st : SchedState) (i j : Nat)
    (h : j ∈ st.destroyed) : j ∈ (destroyEffect st i).destroyed := by
  unfold destroyEffect; split
  · exact h
  · exact List.mem_append_left _ h

theorem enqueue_ran (st : SchedState) (i : Nat) :
    (enqueue st i).ran = st.ran := by
  unfold enqueue; split <;> rfl

theorem enqueue_destroyed (st : SchedState) (i : Nat) :
    (enqueue st i).destroyed = st.destroyed := by
  unfold enqueue; split <;> rfl

theorem enqueue_runningEffects (st : SchedState) (i : Nat) :
    (enqueue st i).runningEffects = st.runningEffects := by
  unfold enqueue; split <;> rfl

theorem enqueue_runningRender (st : SchedState) (i : Nat) :
    (enqueue st i).runningRenderEffects = st.runningRenderEffects := by
  unfold enqueue; split <;> rfl

theorem enqueue_sawNotRunning (st : SchedState) (i : Nat) :
    (enqueue st i).sawNotRunning = st.sawNotRunning := by
  unfold enqueue; split <;> rfl

theorem enqueue_queue_mono (st : SchedState) (i j : Nat)
    (h : j ∈ st.queue) : j ∈ (enqueue st i).queue := by
  unfold enqueue; split
  · exact h
  · exact List.mem_append_left _ h

theorem schedule_ran (st : SchedState) (oi : Option Nat) :
    (schedule st oi).ran = st.ran := by
  unfold schedule
  cases oi <;> dsimp only <;> split <;> simp [enqueue_ran]

theorem schedule_destroyed (st : SchedState) (oi : Option Nat) :
    (schedule st oi).destroyed = st.destroyed := by
  unfold schedule
  cases oi <;> dsimp only <;> split <;> simp [enqueue_destroyed]

theorem schedule_runningEffects (st : SchedState) (oi : Option Nat) :
    (schedule st oi).runningEffects = st.runningEffects := by
  unfold schedule
  cases oi <;> dsimp only <;> split <;> simp [enqueue_runningEffects]

theorem schedule_runningRender (st : SchedState) (oi : Option Nat) :
    (schedule st oi).runningRenderEffects = st.runningRenderEffects := by
  unfold schedule
  cases oi <;> dsimp only <;> split <;> simp [enqueue_runningRender]

theorem schedule_sawNotRunning (st : SchedState) (oi : Option Nat) :
    (schedule st oi).sawNotRunning = st.sawNotRunning := by
  unfold schedule
  cases oi <;> dsimp only <;> split <;> simp [enqueue_sawNotRunning]

theorem schedule_queue_mono (st : SchedState) (oi : Option Nat) (j : Nat)
    (h : j ∈ st.queue) : j ∈ (schedule st oi).queue := by
  unfold schedule
  cases oi with
  | none => dsimp only; split <;> exact h
  | some i => dsimp only; split <;> exact enqueue_queue_mono st i j h

theorem applyBody_runningEffects (specs : Nat → EffectSpec) (st : SchedState) (j : Nat) :
    (applyBody specs st j).runningEffects = st.runningEffects := by
  unfold applyBody
  rw [foldl_proj _ SchedState.runningEffects (fun s a => schedule_runningEffects s (some a))]
  rw [foldl_proj _ SchedState.runningEffects destroyEffect_runningEffects]

theorem applyBody_runningRender (specs : Nat → EffectSpec) (st : SchedState) (j : Nat) :
    (applyBody specs st j).runningRenderEffects = st.runningRenderEffects := by
  unfold applyBody
  rw [foldl_proj _ SchedState.runningRenderEffects (fun s a => schedule_runningRender s (some a))]
  rw [foldl_proj _ SchedState.runningRenderEffects destroyEffect_runningRender]

theorem applyBody_sawNotRunning (specs : Nat → EffectSpec) (st : SchedState) (j : Nat) :
    (applyBody specs st j).sawNotRunning = st.sawNotRunning := by
  unfold applyBody
  rw [foldl_proj _ SchedState.sawNotRunning (fun s a => schedule_sawNotRunning s (some a))]
  rw [foldl_proj _ SchedState.sawNotRunning destroyEffect_sawNotRunning]

theorem applyBody_ran (specs : Nat → EffectSpec) (st : SchedState) (j : Nat) :
    (applyBody specs st j).ran = st.ran ++ [j] := by
  unfold applyBody
  rw [foldl_proj _ SchedState.ran (fun s a => schedule_ran s (some a))]
  rw [foldl_proj _ SchedState.ran destroyEffect_ran]

theorem applyBody_destroyed_mono (specs : Nat → EffectSpec) (st : SchedState) (i j : Nat)
    (h : i ∈ st.destroyed) : i ∈ (applyBody specs st j).destroyed := by
  unfold applyBody
  rw [foldl_proj _ SchedState.destroyed (fun s a => schedule_destroyed s (some a))]
  exact foldl_pred destroyEffect (fun s => i ∈ s.destroyed)
    (fun s a hs => destroyEffect_destroyed_mono s a i hs) _ _ h

theorem applyBody_destroyed_nil (specs : Nat → EffectSpec) (st : SchedState) (j : Nat)
    (hd : (specs j).destroys = []) :
    (applyBody specs st j).destroyed = st.destroyed := by
  unfold applyBody
  rw [foldl_proj _ SchedState.destroyed (fun s a => schedule_destroyed s (some a))]
  rw [hd]
  rfl

theorem applyBody_queue_mono (specs : Nat → EffectSpec) (st : SchedState) (x j : Nat)
    (h : x ∈ st.queue) : x ∈ (applyBody specs st j).queue := by
  unfold applyBody
  apply foldl_pred _ (fun s => x ∈ s.queue)
    (fun s a hs => schedule_queue_mono s (some a) x hs)
  apply foldl_pred destroyEffect (fun s => x ∈ s.queue)
  · intro s a hs
    rw [destroyEffect_queue]
    exact hs
  · exact h

theorem applyBody_ran_mono (specs : Nat → EffectSpec) (st : SchedState) (x j : Nat)
    (h : x ∈ st.ran) : x ∈ (applyBody specs st j).ran := by
  rw [applyBody_ran]
  exact List.mem_append_left _ h

theorem noteRun_eq_self (st : SchedState) (h : st.runningEffects = true) :
    noteRun st = st := by
  unfold noteRun
  rw [if_pos h]

theorem noteRun_destroyed (st : SchedState) :
    (noteRun st).destroyed = st.destroyed := by
  unfold noteRun; split <;> rfl

theorem noteRun_ran (st : SchedState) : (noteRun st).ran = st.ran := by
  unfold noteRun; split <;> rfl

theorem noteRun_queue (st : SchedState) : (noteRun st).queue = st.queue := by
  unfold noteRun; split <;> rfl

theorem runOne_not_thrown (specs : Nat → EffectSpec) (st : SchedState) (j : Nat)
    (h : (specs j).throwsUncaught = false) (st' : SchedState) :
    runOne specs st j ≠ RunOut.thrown st' := by
  unfold runOne
  split
  · exact fun hc => RunOut.noConfusion hc
  · rw [h]
    simp only [Bool.false_eq_true, if_false]
    split
    · exact fun hc => RunOut.noConfusion hc
    · exact fun hc => RunOut.noConfusion hc

theorem runOne_flags (specs : Nat → EffectSpec) (st : SchedState) (j : Nat)
    (h : st.runningEffects = true) :
    (runOne specs st j).stOf.runningEffects = true ∧
    (runOne specs st j).stOf.runningRenderEffects = st.runningRenderEffects ∧
    (runOne specs st j).stOf.sawNotRunning = st.sawNotRunning := by
  unfold runOne
  rw [noteRun_eq_self st h]
  split
  · exact ⟨h, rfl, rfl⟩
  · split
    · exact ⟨h, rfl, rfl⟩
    · split
      · exact ⟨h, rfl, rfl⟩
      · exact ⟨(applyBody_runningEffects specs st j).trans h,
          applyBody_runningRender specs st j,
          applyBody_sawNotRunning specs st j⟩

theorem runOne_destroyed_inv (specs : Nat → EffectSpec) (st : SchedState) (j i : Nat)
    (h1 : i ∈ st.destroyed) (h2 : i ∉ st.ran) :
    i ∈ (runOne specs st j).stOf.destroyed ∧ i ∉ (runOne specs st j).stOf.ran := by
  unfold runOne
  split
  · exact ⟨h1, h2⟩
  · rename_i hj
    have hij : i ≠ j := fun he => hj (he ▸ h1)
    have hmem : ∀ l : List Nat, i ∉ l → i ∉ l ++ [j] := by
      intro l hl hc
      rcases List.mem_append.mp hc with hc | hc
      · exact hl hc
      · exact hij (List.mem_singleton.mp hc)
    have hd1 : i ∈ (noteRun st).destroyed := by rw [noteRun_destroyed]; exact h1
    have hr1 : i ∉ (noteRun st).ran := by rw [noteRun_ran]; exact h2
    split
    · exact ⟨hd1, hr1⟩
    · split
      · exact ⟨hd1, hmem _ hr1⟩
      · refine ⟨applyBody_destroyed_mono specs _ i j hd1, ?_⟩
        show i ∉ (applyBody specs (noteRun st) j).ran
        rw [applyBody_ran]
        exact hmem _ hr1

theorem runOne_ran_mono (specs : Nat → EffectSpec) (st : SchedState) (j x : Nat)
    (h : x ∈ st.ran) : x ∈ (runOne specs st j).stOf.ran := by
  have h1 : x ∈ (noteRun st).ran := by rw [noteRun_ran]; exact h
  unfold runOne
  split
  · exact h
  · split
    · exact h1
    · split
      · exact List.mem_append_left _ h1
      · exact applyBody_ran_mono specs _ x j h1

theorem runOne_clean (specs : Nat → EffectSpec) (st : SchedState) (j : Nat)
    (hu : (specs j).throwsUncaught = false)
    (hd : (specs j).destroys = [])
    (h0 : st.destroyed = []) :
    ∃ st1, runOne specs st j = RunOut.ok st1 ∧ st1.destroyed = [] ∧
      j ∈ st1.ran ∧ (∀ x ∈ st.ran, x ∈ st1.ran) ∧ (∀ x ∈ st.queue, x ∈ st1.queue) := by
  have hdn : (noteRun st).destroyed = [] := by rw [noteRun_destroyed]; exact h0
  unfold runOne
  split
  · rename_i hjd
    rw [h0] at hjd
    exact absurd hjd (List.not_mem_nil j)
  · rw [hu]
    simp only [Bool.false_eq_true, if_false]
    split
    · refine ⟨_, rfl, hdn, ?_, ?_, ?_⟩
      · exact List.mem_append_right _ (List.mem_singleton.mpr rfl)
      · intro x hx
        have : x ∈ (noteRun st).ran := by rw [noteRun_ran]; exact hx
        exact List.mem_append_left _ this
      · intro x hx
        show x ∈ (noteRun st).queue
        rw [noteRun_queue]
        exact hx
    · refine ⟨_, rfl, ?_, ?_, ?_, ?_⟩
      · rw [applyBody_destroyed_nil specs _ j hd]
        exact hdn
      · rw [applyBody_ran]
        exact List.mem_append_right _ (List.mem_singleton.mpr rfl)
      · intro x hx
        have : x ∈ (noteRun st).ran := by rw [noteRun_ran]; exact hx
        exact applyBody_ran_mono specs _ x j this
      · intro x hx
        have : x ∈ (noteRun st).queue := by rw [noteRun_queue]; exact hx
        exact applyBody_queue_mono specs _ x j this

theorem drain_done_queue (specs : Nat → EffectSpec) :
    ∀ (fuel : Nat) (st st' : SchedState),
      drain specs fuel st = DrainOut.done st' → st'.queue = [] := by
  intro fuel
  induction fuel with
  | zero => intro st st' h; exact DrainOut.noConfusion h
  | succ n ih =>
    intro st st' h
    unfold drain at h
    cases hq : st.queue with
    | nil =>
      rw [hq] at h
      dsimp only at h
      cases h
      exact hq
    | cons id rest =>
      rw [hq] at h
      dsimp only at h
      cases hr : runOne specs { st with queue := rest } id with
      | ok st1 => rw [hr] at h; exact ih st1 st' h
      | thrown st1 => rw [hr] at h; exact DrainOut.noConfusion h

theorem drain_never_thrown (specs : Nat → EffectSpec)
    (hu : ∀ k, (specs k).throwsUncaught = false) :
    ∀ (fuel : Nat) (st st' : SchedState),
      drain specs fuel st ≠ DrainOut.thrown st' := by
  intro fuel
  induction fuel with
  | zero => intro st st' h; exact DrainOut.noConfusion h
  | succ n ih =>
    intro st st' h
    unfold drain at h
    cases hq : st.queue with
    | nil => rw [hq] at h; exact DrainOut.noConfusion h
    | cons id rest =>
      rw [hq] at h
      dsimp only at h
      cases hr : runOne specs { st with queue := rest } id with
      | ok st1 => rw [hr] at h; exact ih st1 st' h
      | thrown st1 => exact runOne_not_thrown specs _ id (hu id) st1 hr

theorem drain_flags (specs : Nat → EffectSpec) :
    ∀ (fuel : Nat) (st st' : SchedState), st.runningEffects = true →
      (drain specs fuel st = DrainOut.done st' ∨
        drain specs fuel st = DrainOut.thrown st') →
      st'.runningEffects = true ∧
      st'.runningRenderEffects = st.runningRenderEffects ∧
      st'.sawNotRunning = st.sawNotRunning := by
  intro fuel
  induction fuel with
  | zero =>
    intro st st' hre h
    rcases h with h | h <;> exact DrainOut.noConfusion h
  | succ n ih =>
    intro st st' hre h
    unfold drain at h
    cases hq : st.queue with
    | nil =>
      rw [hq] at h
      dsimp only at h
      rcases h with h | h
      · cases h; exact ⟨hre, rfl, rfl⟩
      · exact DrainOut.noConfusion h
    | cons id rest =>
      rw [hq] at h
      dsimp only at h
      have hflags := runOne_flags specs { st with queue := rest } id hre
      cases hr : runOne specs { st with queue := rest } id with
      | ok st1 =>
        rw [hr] at h hflags
        dsimp only [RunOut.stOf] at hflags
        have := ih st1 st' hflags.1 h
        exact ⟨this.1, this.2.1.trans hflags.2.1, this.2.2.trans hflags.2.2⟩
      | thrown st1 =>
        rw [hr] at h hflags
        dsimp only [RunOut.stOf] at hflags
        rcases h with h | h
        · exact DrainOut.noConfusion h
        · cases h
          exact hflags

theorem drain_destroyed_inv (specs : Nat → EffectSpec) :
    ∀ (fuel : Nat) (st st' : SchedState) (i : Nat),
      i ∈ st.destroyed → i ∉ st.ran →
      (drain specs fuel st = DrainOut.done st' ∨
        drain specs fuel st = DrainOut.thrown st') →
      i ∈ st'.destroyed ∧ i ∉ st'.ran := by
  intro fuel
  induction fuel with
  | zero =>
    intro st st' i _ _ h
    rcases h with h | h <;> exact DrainOut.noConfusion h
  | succ n ih =>
    intro st st' i h1 h2 h
    unfold drain at h
    cases hq : st.queue with
    | nil =>
      rw [hq] at h
      dsimp only at h
      rcases h with h | h
      · cases h; exact ⟨h1, h2⟩
      · exact DrainOut.noConfusion h
    | cons id rest =>
      rw [hq] at h
      dsimp only at h
      have hinv := runOne_destroyed_inv specs { st with queue := rest } id i h1 h2
      cases hr : runOne specs { st with queue := rest } id with
      | ok st1 =>
        rw [hr] at h hinv
        dsimp only [RunOut.stOf] at hinv
        exact ih st1 st' i hinv.1 hinv.2 h
      | thrown st1 =>
        rw [hr] at h hinv
        dsimp only [RunOut.stOf] at hinv
        rcases h with h | h
        · exact DrainOut.noConfusion h
        · cases h
          exact hinv

theorem drain_ran_mono (specs : Nat → EffectSpec) :
    ∀ (fuel : Nat) (st st' : SchedState) (x : Nat), x ∈ st.ran →
      drain specs fuel st = DrainOut.done st' → x ∈ st'.ran := by
  intro fuel
  induction fuel with
  | zero => intro st st' x _ h; exact DrainOut.noConfusion h
  | succ n ih =>
    intro st st' x hx h
    unfold drain at h
    cases hq : st.queue with
    | nil =>
      rw [hq] at h
      dsimp only at h
      cases h
      exact hx
    | cons id rest =>
      rw [hq] at h
      dsimp only at h
      have hm := runOne_ran_mono specs { st with queue := rest } id x hx
      cases hr : runOne specs { st with queue := rest } id with
      | ok st1 =>
        rw [hr] at h hm
        dsimp only [RunOut.stOf] at hm
        exact ih st1 st' x hm h
      | thrown st1 => rw [hr] at h; exact DrainOut.noConfusion h

theorem drain_runs_all (specs : Nat → EffectSpec)
    (hu : ∀ k, (specs k).throwsUncaught = false)
    (hd : ∀ k, (specs k).destroys = []) :
    ∀ (fuel : Nat) (st st' : SchedState), st.destroyed = [] →
      drain specs fuel st = DrainOut.done st' →
      ∀ x ∈ st.queue, x ∈ st'.ran := by
  intro fuel
  induction fuel with
  | zero => intro st st' _ h; exact DrainOut.noConfusion h
  | succ n ih =>
    intro st st' h0 h x hx
    unfold drain at h
    cases hq : st.queue with
    | nil =>
      rw [hq] at hx
      exact absurd hx (List.not_mem_nil x)
    | cons id rest =>
      rw [hq] at h hx
      dsimp only at h
      obtain ⟨st1, hok, hdes, hjran, hranmono, hqmono⟩ :=
        runOne_clean specs { st with queue := rest } id (hu id) (hd id) h0
      rw [hok] at h
      rcases List.mem_cons.mp hx with hx | hx
      · subst hx
        exact drain_ran_mono specs n st1 st' x hjran h
      · exact ih st1 st' hdes h x (hqmono x hx)


/-- C4: in every call to the scheduler's `flush()`, the pending-effect queue is
drained repeatedly until it is empty — including effects that running effects
synchronously schedule during the same flush, as the concrete instance
(`c4specs`: effect 0 schedules effect 1 mid-flush, and both have run by the end)
shows — and the after-render phase is entered only once the queue is empty:
the pending queue recorded at the moment `renderManager?.execute()` begins is
always the empty queue. -/
theorem C4_flush_drains_queue_before_after_render
    (specs : Nat → EffectSpec) (rt : Bool) (fuel : Nat) (st st' : SchedState)
    (h : flush specs rt fuel st = FlushOut.ok st') :
    st'.renderEntryQueue = some [] ∧ st'.queue = [] ∧
    (flush c4specs false 5 c4init).isOk = true ∧
    (flush c4specs false 5 c4init).stOf.map (fun s => (s.ran, s.renderEntryQueue)) =
      some ([0, 1], some []) := by
  have key : st'.renderEntryQueue = some [] ∧ st'.queue = [] := by
    unfold flush at h
    dsimp only at h
    cases hdd : drain specs fuel { st with runningEffects := true } with
    | fuelOut => rw [hdd] at h; exact FlushOut.noConfusion h
    | thrown st1 => rw [hdd] at h; exact FlushOut.noConfusion h
    | done st1 =>
      rw [hdd] at h
      dsimp only at h
      split at h
      · exact FlushOut.noConfusion h
      · injection h with h
        subst h
        have hq := drain_done_queue specs fuel _ st1 hdd
        constructor
        · dsimp only
          rw [hq]
        · dsimp only
          exact hq
  exact ⟨key.1, key.2, by decide, by decide⟩

/-- Witness for C4 at a concrete input. -/
theorem C4_witness :
    quietFinal.renderEntryQueue = some [] ∧ quietFinal.queue = [] ∧
    (flush c4specs false 5 c4init).isOk = true ∧
    (flush c4specs false 5 c4init).stOf.map (fun s => (s.ran, s.renderEntryQueue)) =
      some ([0, 1], some []) :=
  C4_flush_drains_queue_before_after_render inertAll false 1 initSched quietFinal
    (by decide)

/-- C3: an exception thrown by an effect body is caught at that effect's own
per-reaction boundary (`#runEffect`) and deferred via `setTimeout`: for any
family of effects whose `run` wrappers catch (no raw uncaught throwers), a
flush never propagates an exception, every pending effect still runs (here
under bodies that destroy no effects), and `schedule` — hence the signal write
that calls it — executes no effect body synchronously.  Concretely
(`c3specs`: effect 1 of three throws), the flush completes with all three
bodies run and the error recorded for asynchronous rethrow. -/
theorem C3_effect_exception_deferred_flush_continues
    (specs : Nat → EffectSpec) (fuel : Nat) (st st' : SchedState)
    (hu : ∀ k, (specs k).throwsUncaught = false)
    (hde : ∀ k, (specs k).destroys = [])
    (h0 : st.destroyed = []) :
    (∀ s1, flush specs false fuel st ≠ FlushOut.thrown s1) ∧
    (flush specs false fuel st = FlushOut.ok st' → ∀ x ∈ st.queue, x ∈ st'.ran) ∧
    (∀ (s : SchedState) (oi : Option Nat), (schedule s oi).ran = s.ran) ∧
    (flush c3specs false 9 c3init).isOk = true ∧
    (flush c3specs false 9 c3init).stOf.map (fun s => (s.ran, s.deferred)) =
      some ([0, 1, 2], [1]) := by
  refine ⟨?_, ?_, schedule_ran, by decide, by decide⟩
  · intro s1 hcon
    unfold flush at hcon
    dsimp only at hcon
    cases hdd : drain specs fuel { st with runningEffects := true } with
    | fuelOut => rw [hdd] at hcon; exact FlushOut.noConfusion hcon
    | thrown st1 => exact drain_never_thrown specs hu fuel _ st1 hdd
    | done st1 =>
      rw [hdd] at hcon
      dsimp only at hcon
      rw [if_neg (by decide : ¬ false = true)] at hcon
      exact FlushOut.noConfusion hcon
  · intro h x hx
    unfold flush at h
    dsimp only at h
    cases hdd : drain specs fuel { st with runningEffects := true } with
    | fuelOut => rw [hdd] at h; exact FlushOut.noConfusion h
    | thrown st1 => rw [hdd] at h; exact FlushOut.noConfusion h
    | done st1 =>
      rw [hdd] at h
      dsimp only at h
      rw [if_neg (by decide : ¬ false = true)] at h
      injection h with h
      subst h
      dsimp only
      exact drain_runs_all specs hu hde fuel { st with runningEffects := true } st1
        h0 hdd x hx

/-- Witness for C3 at a concrete input. -/
theorem C3_witness :
    (∀ s1, flush c3specs false 9 c3init ≠ FlushOut.thrown s1) ∧
    (flush c3specs false 9 c3init = FlushOut.ok c3final →
      ∀ x ∈ c3init.queue, x ∈ c3final.ran) ∧
    (∀ (s : SchedState) (oi : Option Nat), (schedule s oi).ran = s.ran) ∧
    (flush c3specs false 9 c3init).isOk = true ∧
    (flush c3specs false 9 c3init).stOf.map (fun s => (s.ran, s.deferred)) =
      some ([0, 1, 2], [1]) :=
  C3_effect_exception_deferred_flush_continues c3specs 9 c3init c3final
    (by intro k; unfold c3specs inertSpec; split <;> rfl)
    (by intro k; unfold c3specs inertSpec; split <;> rfl)
    (by decide)

/-- C6: an effect destroyed before the scheduler visits it — including
destruction from within another effect's body mid-flush, as the concrete
instance (`c6specs`: effect 0 destroys effect 1, only effect 0's body runs)
shows — executes no body when visited: an effect destroyed and not yet run
before a flush is still not run after it.  `destroy` itself never touches the
pending queue; the scheduler detects destruction lazily at the visit. -/
theorem C6_destroyed_effect_pending_run_is_noop
    (specs : Nat → EffectSpec) (rt : Bool) (fuel : Nat) (st st' : SchedState) (i : Nat)
    (h : flush specs rt fuel st = FlushOut.ok st')
    (h2 : i ∈ st.destroyed) (h3 : i ∉ st.ran) :
    i ∉ st'.ran ∧ i ∈ st'.destroyed ∧
    (∀ (s : SchedState) (j : Nat), (destroyEffect s j).queue = s.queue) ∧
    (flush c6specs false 5 c6init).stOf.map (fun s => (s.ran, s.destroyed, s.queue)) =
      some ([0], [1], []) := by
  have key : i ∈ st'.destroyed ∧ i ∉ st'.ran := by
    unfold flush at h
    dsimp only at h
    cases hdd : drain specs fuel { st with runningEffects := true } with
    | fuelOut => rw [hdd] at h; exact FlushOut.noConfusion h
    | thrown st1 => rw [hdd] at h; exact FlushOut.noConfusion h
    | done st1 =>
      rw [hdd] at h
      dsimp only at h
      split at h
      · exact FlushOut.noConfusion h
      · injection h with h
        subst h
        exact drain_destroyed_inv specs fuel { st with runningEffects := true } st1
          i h2 h3 (Or.inl hdd)
  exact ⟨key.2, key.1, destroyEffect_queue, by decide⟩

/-- Witness for C6 at a concrete input. -/
theorem C6_witness :
    (7 : Nat) ∉ destroyedSevenFinal.ran ∧ (7 : Nat) ∈ destroyedSevenFinal.destroyed ∧
    (∀ (s : SchedState) (j : Nat), (destroyEffect s j).queue = s.queue) ∧
    (flush c6specs false 5 c6init).stOf.map (fun s => (s.ran, s.destroyed, s.queue)) =
      some ([0], [1], []) :=
  C6_destroyed_effect_pending_run_is_noop inertAll false 1 destroyedSevenInit
    destroyedSevenFinal 7 (by decide) (by decide) (by decide)

/-- C9: the scheduler's `running` query is false on the fresh scheduler, is
unchanged by `schedule` and by effect destruction (so it is false at every time
outside `flush`), and after any `flush` — completing normally or throwing —
both internal flags are back to false, thanks to the `finally` blocks; no
effect body ever observes `#runningEffects = false` during a flush, and the
after-render phase is entered with the `running` query reading true. -/
theorem C9_running_true_exactly_during_flush
    (specs : Nat → EffectSpec) (rt : Bool) (fuel : Nat) (st st' : SchedState)
    (i : Nat) (oi : Option Nat)
    (hsaw : st.sawNotRunning = false) (hrre : st.runningRenderEffects = false) :
    running initSched = false ∧
    running (schedule st oi) = running st ∧
    running (destroyEffect st i) = running st ∧
    (flush specs rt fuel st = FlushOut.ok st' →
      running st' = false ∧ st'.sawNotRunning = false ∧
      st'.renderEntryRunning = some true) ∧
    (flush specs rt fuel st = FlushOut.thrown st' →
      running st' = false ∧ st'.sawNotRunning = false) := by
  refine ⟨rfl, ?_, ?_, ?_, ?_⟩
  · unfold running
    rw [schedule_runningEffects, schedule_runningRender]
  · unfold running
    rw [destroyEffect_runningEffects, destroyEffect_runningRender]
  · intro h
    unfold flush at h
    dsimp only at h
    cases hdd : drain specs fuel { st with runningEffects := true } with
    | fuelOut => rw [hdd] at h; exact FlushOut.noConfusion h
    | thrown st1 => rw [hdd] at h; exact FlushOut.noConfusion h
    | done st1 =>
      rw [hdd] at h
      dsimp only at h
      have hfl := drain_flags specs fuel _ st1 rfl (Or.inl hdd)
      split at h
      · exact FlushOut.noConfusion h
      · injection h with h
        subst h
        refine ⟨rfl, ?_, rfl⟩
        dsimp only
        rw [hfl.2.2]
        exact hsaw
  · intro h
    unfold flush at h
    dsimp only at h
    cases hdd : drain specs fuel { st with runningEffects := true } with
    | fuelOut => rw [hdd] at h; exact FlushOut.noConfusion h
    | thrown st1 =>
      rw [hdd] at h
      dsimp only at h
      injection h with h
      subst h
      have hfl := drain_flags specs fuel _ st1 rfl (Or.inr hdd)
      constructor
      · unfold running
        dsimp only
        rw [hfl.2.1]
        dsimp only
        rw [hrre]
        rfl
      · dsimp only
        rw [hfl.2.2]
        exact hsaw
    | done st1 =>
      rw [hdd] at h
      dsimp only at h
      have hfl := drain_flags specs fuel _ st1 rfl (Or.inl hdd)
      split at h
      · injection h with h
        subst h
        constructor
        · rfl
        · dsimp only
          rw [hfl.2.2]
          exact hsaw
      · exact FlushOut.noConfusion h

/-- Witness for C9 at a concrete input. -/
theorem C9_witness :
    running initSched = false ∧
    running (schedule initSched (some 4)) = running initSched ∧
    running (destroyEffect initSched 3) = running initSched ∧
    (flush inertAll false 1 initSched = FlushOut.ok quietFinal →
      running quietFinal = false ∧ quietFinal.sawNotRunning = false ∧
      quietFinal.renderEntryRunning = some true) ∧
    (flush inertAll false 1 initSched = FlushOut.thrown quietFinal →
      running quietFinal = false ∧ quietFinal.sawNotRunning = false) :=
  C9_running_true_exactly_during_flush inertAll false 1 initSched quietFinal 3 (some 4)
    rfl rfl

end Flare

namespace Flare.Render

/-! ## Lemmas about the after-render manager model -/

theorem updateSeq_trace (st : MgrState) (tid : Nat) (f : Seq → Seq) :
    (updateSeq st tid f).trace = st.trace := rfl

theorem unregister_trace (st : MgrState) (tid : Nat) :
    (unregister st tid).trace = st.trace := by
  unfold unregister
  split
  · exact updateSeq_trace _ tid _
  · rfl

theorem runSeqAt_trace (st : MgrState) (phase i : Nat) :
    ∃ t, (runSeqAt st phase i).trace = st.trace ++ t ∧ ∀ e ∈ t, e.2.1 = phase := by
  unfold runSeqAt
  cases hs : st.sequences.get? i with
  | none => exact ⟨[], by simp, by simp⟩
  | some s =>
    dsimp only
    split
    · exact ⟨[], by simp, by simp⟩
    · cases hh : hookAt s phase with
      | none => exact ⟨[], by simp, by simp⟩
      | some f =>
        dsimp only
        cases hv : f s.pipelinedValue with
        | ok v =>
          refine ⟨[(s.id, phase, s.pipelinedValue)], ?_, ?_⟩
          · exact updateSeq_trace _ s.id _
          · intro e he
            rw [List.mem_singleton] at he
            subst he
            rfl
        | okUnreg v t =>
          refine ⟨[(s.id, phase, s.pipelinedValue)], ?_, ?_⟩
          · rw [updateSeq_trace, unregister_trace]
          · intro e he
            rw [List.mem_singleton] at he
            subst he
            rfl
        | thrown =>
          refine ⟨[(s.id, phase, s.pipelinedValue)], ?_, ?_⟩
          · rfl
          · intro e he
            rw [List.mem_singleton] at he
            subst he
            rfl

theorem runPhaseFrom_trace (phase : Nat) :
    ∀ (count i : Nat) (st : MgrState),
      ∃ t, (runPhaseFrom phase i count st).trace = st.trace ++ t ∧
        ∀ e ∈ t, e.2.1 = phase := by
  intro count
  induction count with
  | zero => intro i st; exact ⟨[], by simp [runPhaseFrom], by simp⟩
  | succ n ih =>
    intro i st
    obtain ⟨t1, h1, hp1⟩ := runSeqAt_trace st phase i
    obtain ⟨t2, h2, hp2⟩ := ih (i + 1) (runSeqAt st phase i)
    refine ⟨t1 ++ t2, ?_, ?_⟩
    · unfold runPhaseFrom
      rw [h2, h1, List.append_assoc]
    · intro e he
      rcases List.mem_append.mp he with he | he
      · exact hp1 e he
      · exact hp2 e he

theorem runPhase_trace (phase : Nat) (st : MgrState) :
    ∃ t, (runPhase phase st).trace = st.trace ++ t ∧ ∀ e ∈ t, e.2.1 = phase :=
  runPhaseFrom_trace phase st.sequences.length 0 st

theorem execute_trace (st : MgrState) :
    ∃ t0 t1 t2 t3, (execute st).trace = st.trace ++ t0 ++ t1 ++ t2 ++ t3 ∧
      (∀ e ∈ t0, e.2.1 = 0) ∧ (∀ e ∈ t1, e.2.1 = 1) ∧
      (∀ e ∈ t2, e.2.1 = 2) ∧ (∀ e ∈ t3, e.2.1 = 3) := by
  obtain ⟨t0, h0, hp0⟩ := runPhase_trace 0 { st with executing := true }
  obtain ⟨t1, h1, hp1⟩ := runPhase_trace 1 (runPhase 0 { st with executing := true })
  obtain ⟨t2, h2, hp2⟩ :=
    runPhase_trace 2 (runPhase 1 (runPhase 0 { st with executing := true }))
  obtain ⟨t3, h3, hp3⟩ :=
    runPhase_trace 3 (runPhase 2 (runPhase 1 (runPhase 0 { st with executing := true })))
  refine ⟨t0, t1, t2, t3, ?_, hp0, hp1, hp2, hp3⟩
  show (execute st).trace = st.trace ++ t0 ++ t1 ++ t2 ++ t3
  unfold execute
  dsimp only
  rw [h3, h2, h1, h0]

end Flare.Render

namespace Flare.Render

theorem map_id_update (l : List Seq) (tid : Nat) (f : Seq → Seq)
    (hf : ∀ q, (f q).id = q.id) :
    (l.map fun q => if q.id = tid then f q else q).map Seq.id = l.map Seq.id := by
  induction l with
  | nil => rfl
  | cons a t ih =>
    dsimp only [List.map]
    rw [ih]
    congr 1
    split
    · exact hf _
    · rfl

/-- C5: in every after-render execution the phases run in strict order
earlyRead (0), then write (1), then mixedReadWrite (2), then read (3) across
all registered sequences — the trace decomposes into four segments with those
phases in order — and, per registration, each hook receives the value produced
by that registration's most recently run earlier phase of the same execution,
the first hook to run receiving no prior value: for arbitrary hook functions,
sequence 1 (hooks in all four phases) pipelines `f0 none` into `f1`, its result
into `f2`, and so on, while sequence 2 (hooks only in write and read) has its
write hook receive nothing and its read hook receive the write result. -/
theorem C5_after_render_phase_order_and_pipelining
    (st : MgrState) (f0 f1 f2 f3 g1 g3 : Option Nat → Nat) :
    (∃ t0 t1 t2 t3, (execute st).trace = st.trace ++ t0 ++ t1 ++ t2 ++ t3 ∧
      (∀ e ∈ t0, e.2.1 = 0) ∧ (∀ e ∈ t1, e.2.1 = 1) ∧
      (∀ e ∈ t2, e.2.1 = 2) ∧ (∀ e ∈ t3, e.2.1 = 3)) ∧
    (execute (c5init f0 f1 f2 f3 g1 g3)).trace =
      [ (1, 0, none), (1, 1, some (f0 none)), (2, 1, none),
        (1, 2, some (f1 (some (f0 none)))),
        (1, 3, some (f2 (some (f1 (some (f0 none)))))),
        (2, 3, some (g1 none)) ] := by
  refine ⟨execute_trace st, ?_⟩
  simp [execute, runPhase, runPhaseFrom, runSeqAt, c5init, hookAt, updateSeq,
    unregister, okHook, afterRun, register]

/-- C7: a sequence whose hook throws in one sub-phase has the error deferred
for asynchronous rethrow, runs none of its hooks in the remaining sub-phases of
that execution, and is removed at the end of the execution if one-shot, while a
recurring erroring sequence is reset and runs again in the next execution: with
sequence 1 one-shot throwing at write, sequence 2 recurring and healthy, and
sequence 3 recurring throwing at write (revealing hooks `rv`) — the first
execution traces sequences 1 and 3 only in phases 0 and 1, defers the errors
(1,1) and (3,1), removes sequence 1 and keeps sequences 2 and 3 reset; the
second execution re-runs sequences 2 and 3 from scratch, sequence 3 erroring
again. -/
theorem C7_after_render_error_skips_and_once_removal :
    (execute (c7init (rv 10) (rv 20) (rv 21) (rv 22) (rv 23) (rv 30))).trace =
      [ (1, 0, none), (2, 0, none), (3, 0, none),
        (1, 1, some 1099), (2, 1, some 2099), (3, 1, some 3099),
        (2, 2, some 4199), (2, 3, some 6399) ] ∧
    (execute (c7init (rv 10) (rv 20) (rv 21) (rv 22) (rv 23) (rv 30))).deferredErrors =
      [(1, 1), (3, 1)] ∧
    (execute (c7init (rv 10) (rv 20) (rv 21) (rv 22) (rv 23) (rv 30))).sequences.map
        (fun s => (s.id, s.once, s.erroredOrDestroyed, s.pipelinedValue)) =
      [(2, false, false, none), (3, false, false, none)] ∧
    (execute (execute (c7init (rv 10) (rv 20) (rv 21) (rv 22) (rv 23) (rv 30)))).trace =
      [ (1, 0, none), (2, 0, none), (3, 0, none),
        (1, 1, some 1099), (2, 1, some 2099), (3, 1, some 3099),
        (2, 2, some 4199), (2, 3, some 6399),
        (2, 0, none), (3, 0, none),
        (2, 1, some 2099), (3, 1, some 3099),
        (2, 2, some 4199), (2, 3, some 6399) ] ∧
    (execute (execute (c7init (rv 10) (rv 20) (rv 21) (rv 22) (rv 23) (rv 30)))).deferredErrors =
      [(1, 1), (3, 1), (3, 1)] := by
  decide

/-- C10: unregistering a sequence while the manager is executing does not
remove it from the active set immediately — the set's identities are unchanged
— but marks it destroyed, clears its pipelined value and marks it one-shot, so
it runs no further hooks in that execution and is removed at the end even if
registered as recurring: concretely, sequence 1's earlyRead hook destroys the
recurring sequence 2, none of sequence 2's hooks produce trace entries, and
after the execution only sequence 1 remains. -/
theorem C10_unregister_mid_execute_defers_removal
    (st : MgrState) (tid : Nat)
    (hex : st.executing = true) (hhas : hasSeq st tid = true) :
    (unregister st tid).sequences.map Seq.id = st.sequences.map Seq.id ∧
    (∀ q ∈ (unregister st tid).sequences, q.id = tid →
      q.erroredOrDestroyed = true ∧ q.pipelinedValue = none ∧ q.once = true) ∧
    (∀ q ∈ (unregister st tid).sequences, q.id ≠ tid → q ∈ st.sequences) ∧
    (execute (c10init (rv 11) (rv 12) (rv 13) (rv 20) (rv 21) (rv 22) (rv 23))).trace =
      [(1, 0, none), (1, 1, some 5), (1, 2, some 1105), (1, 3, some 2305)] ∧
    (execute (c10init (rv 11) (rv 12) (rv 13) (rv 20) (rv 21) (rv 22) (rv 23))).sequences.map
        Seq.id = [1] := by
  have hc : (st.executing && st.sequences.any fun q => q.id == tid) = true := by
    rw [hex, Bool.true_and]
    exact hhas
  have hu : unregister st tid = updateSeq st tid (fun q =>
      { q with erroredOrDestroyed := true, pipelinedValue := none, once := true }) := by
    unfold unregister
    rw [if_pos hc]
  refine ⟨?_, ?_, ?_, by decide, by decide⟩
  · rw [hu]
    exact map_id_update st.sequences tid _ (fun q => rfl)
  · rw [hu]
    intro q hq hqid
    unfold updateSeq at hq
    dsimp only at hq
    rw [List.mem_map] at hq
    obtain ⟨q0, hq0, hq0e⟩ := hq
    by_cases h : q0.id = tid
    · rw [if_pos h] at hq0e
      subst hq0e
      exact ⟨rfl, rfl, rfl⟩
    · rw [if_neg h] at hq0e
      subst hq0e
      exact absurd hqid h
  · rw [hu]
    intro q hq hqid
    unfold updateSeq at hq
    dsimp only at hq
    rw [List.mem_map] at hq
    obtain ⟨q0, hq0, hq0e⟩ := hq
    by_cases h : q0.id = tid
    · rw [if_pos h] at hq0e
      subst hq0e
      exact absurd h (by simpa using hqid)
    · rw [if_neg h] at hq0e
      subst hq0e
      exact hq0

/-- Witness for C10 at a concrete input. -/
theorem C10_witness :
    (unregister c10wst 2).sequences.map Seq.id = c10wst.sequences.map Seq.id ∧
    (∀ q ∈ (unregister c10wst 2).sequences, q.id = 2 →
      q.erroredOrDestroyed = true ∧ q.pipelinedValue = none ∧ q.once = true) ∧
    (∀ q ∈ (unregister c10wst 2).sequences, q.id ≠ 2 → q ∈ c10wst.sequences) ∧
    (execute (c10init (rv 11) (rv 12) (rv 13) (rv 20) (rv 21) (rv 22) (rv 23))).trace =
      [(1, 0, none), (1, 1, some 5), (1, 2, some 1105), (1, 3, some 2305)] ∧
    (execute (c10init (rv 11) (rv 12) (rv 13) (rv 20) (rv 21) (rv 22) (rv 23))).sequences.map
        Seq.id = [1] :=
  C10_unregister_mid_execute_defers_removal c10wst 2 rfl rfl

end Flare.Render

namespace Flare.EffectApi

/-- C1 counterexample: calling the effect construction API with no options at
all — hence no host-lifecycle binding, and no manual-teardown opt-in, which the
options type does not even offer — does not throw, even in dev mode outside a
reactive context: construction returns a handle that connected its watcher
immediately. -/
theorem C1_counterexample :
    effect true false none = ConstructionOutcome.returned true false ∧
    effect true false none ≠ ConstructionOutcome.threw := by
  refine ⟨rfl, by decide⟩

/-- C1 (amended): outside a reactive context, effect construction never throws;
when a host is supplied the handle registers with it, and when no host is
supplied the handle instead connects immediately at construction (creating and
notifying the watcher), leaving teardown to an explicit `destroy()` call. -/
theorem C1_amended_hostless_construction_connects
    (devMode : Bool) (options : Option CreateEffectOptions) :
    effect devMode false options =
      ConstructionOutcome.returned (hostOf options).isNone (hostOf options).isSome := by
  unfold effect
  rw [Bool.and_false, if_neg (by decide : ¬ false = true)]
  cases h : hostOf options with
  | none => rfl
  | some a => rfl

/-- Witness for the amended C1 at concrete inputs. -/
theorem C1_amended_witness :
    effect true false (some { host := some 3, allowSignalWrites := false }) =
      ConstructionOutcome.returned false true ∧
    effect true false none = ConstructionOutcome.returned true false :=
  ⟨C1_amended_hostless_construction_connects true
      (some { host := some 3, allowSignalWrites := false }),
    C1_amended_hostless_construction_connects true none⟩

end Flare.EffectApi

namespace Flare.Micro

/-- C2 counterexample: in the spec's scenario (`s = signal(1)`,
`c = computed(() => s() * 2)`, a manual-cleanup effect logging `c()`), the
effect body does not run synchronously at connect — `hostConnected` calls
`watcher.notify()`, which only schedules — so the log is empty, not `[2]`; and
after two synchronous `s.set(5)` calls before any microtask, the single flush
produces the single log entry `10`, never the claimed sequence `2` then `10`. -/
theorem C2_counterexample :
    (connect initState).log = [] ∧
    (connect initState).log ≠ [2] ∧
    (flushM dbl (setS 5 (setS 5 (connect initState)))).log = [10] ∧
    (flushM dbl (setS 5 (setS 5 (connect initState)))).log ≠ [2, 10] := by
  refine ⟨rfl, by decide, by decide, by decide⟩

/-- C2 (amended): an effect registered with manual cleanup schedules its first
run on connect and executes it at the next microtask flush — there is no
synchronous run at connect — and afterwards re-runs at most once per flush, and
only in a flush in which a producer it read changed, with multiple synchronous
writes in one turn batched into a single re-run observing the final values: in
the scenario, connect logs nothing but leaves the effect pending with a flush
armed; a flush then logs `2`; two synchronous `s.set(5)` before the first flush
yield exactly the single log `10`; after a first flush, two `s.set(5)` then a
flush log exactly one further `10`; a flush with no change re-runs nothing, as
does a write of the unchanged value; and with a constant computed, a change of
the signal does not re-run the effect since the producer it read (the computed)
did not change. -/
theorem C2_amended_first_run_at_flush_and_batching :
    (connect initState).log = [] ∧
    (connect initState).pending = true ∧
    (connect initState).isScheduled = true ∧
    (flushM dbl (connect initState)).log = [2] ∧
    (flushM dbl (setS 5 (setS 5 (connect initState)))).log = [10] ∧
    (flushM dbl (setS 5 (setS 5 (flushM dbl (connect initState))))).log = [2, 10] ∧
    (flushM dbl (flushM dbl (connect initState))).log = [2] ∧
    (flushM dbl (setS 1 (flushM dbl (connect initState)))).log = [2] ∧
    (flushM constSeven (connect initState)).log = [7] ∧
    (flushM constSeven (setS 5 (flushM constSeven (connect initState)))).log = [7] := by
  decide

end Flare.Micro

namespace Flare.Props

/-- C8: in the reactive property-accessor path, a property declaration with a
user `hasChanged` gets a backing signal whose equality function is the
pointwise negation of `hasChanged` (`prop.hasChanged && not(prop.hasChanged)`),
so a write of `newValue` over current value `oldValue` is a no-change —
node untouched, no version bump, no consumer notification — exactly when
`hasChanged newValue oldValue` is false, and bumps the version and notifies
exactly when it is true. -/
theorem C8_property_signal_negates_hasChanged
    (α : Type) (hasChanged : α → α → Bool) (oldV newV : α) (ver : Nat) :
    propertySignalEqual (some hasChanged) = some (negate hasChanged) ∧
    (signalSetFn ⟨oldV, ver, negate hasChanged⟩ newV =
        (⟨oldV, ver, negate hasChanged⟩, false) ↔ hasChanged newV oldV = false) ∧
    (signalSetFn ⟨oldV, ver, negate hasChanged⟩ newV =
        (⟨newV, ver + 1, negate hasChanged⟩, true) ↔ hasChanged newV oldV = true) := by
  refine ⟨rfl, ?_, ?_⟩ <;>
  · unfold signalSetFn negate
    cases h : hasChanged newV oldV <;> simp [h]

/-- Witness for C8 at a concrete input: `hasChanged` is lit's default
`notEqual`, the current value 0 and the written value 1. -/
theorem C8_witness :
    propertySignalEqual (some fun a b : Nat => decide (a ≠ b)) =
      some (negate fun a b : Nat => decide (a ≠ b)) ∧
    (signalSetFn ⟨0, 0, negate fun a b : Nat => decide (a ≠ b)⟩ 1 =
        (⟨0, 0, negate fun a b : Nat => decide (a ≠ b)⟩, false) ↔
      decide ((1 : Nat) ≠ 0) = false) ∧
    (signalSetFn ⟨0, 0, negate fun a b : Nat => decide (a ≠ b)⟩ 1 =
        (⟨1, 0 + 1, negate fun a b : Nat => decide (a ≠ b)⟩, true) ↔
      decide ((1 : Nat) ≠ 0) = true) :=
  C8_property_signal_negates_hasChanged Nat (fun a b => decide (a ≠ b)) 0 1 0

end Flare.Props
